import Mathlib

/-!
Shallow embedding of the `porsche_pricing` pipeline, verified against its
natural-language specification.

Covered source files:
* `src/elferspot_listings/utils/exchange_rates.py` (rate provider, converter)
* `src/elferspot_listings/data_processing/bronze_to_silver.py` (`clean_mileage`)
* `src/elferspot_listings/data_processing/silver_to_gold.py`
  (`remove_outliers`, `create_log_features`, `calculate_listing_score`,
  `process_silver_to_gold`)

Modelling conventions:
* Python floats are modelled as `ℚ`; where IEEE-754 special values (`nan`,
  `±inf`) are semantically relevant (the silver→gold stage uses `np.log` and
  pandas `mean`/`std`, whose NaN behaviour decides several claims), values
  live in the four-constructor type `RVal` with the IEEE propagation and
  comparison rules spelled out operation by operation.
* `np.log` on a positive argument and `sqrt` of a non-negative variance are
  transcendental; no claim depends on their numeric values, so they are
  passed in as function parameters (`ln`, `sq`) and every theorem holds for
  all choices of these parameters.  Their behaviour on the non-positive /
  special inputs (where numpy produces `-inf` or `nan`) is modelled exactly.
* Timestamps (`time.time()`, cache `ts`) are modelled as integer seconds.
* A Python `dict` is modelled as an association list (`List (String × ℚ)`)
  with `List.lookup` (first binding wins, as dict keys are unique).
* Fallible operations (`astype(float)` on an empty string raises
  `ValueError`) return `Option`: `none` is the unhandled exception aborting
  the run.
-/

/-! ### Rate provider and currency converter — `utils/exchange_rates.py` -/

/-- `TTL_SECONDS = 24 * 3600` from `exchange_rates.py`. -/
def TTL_SECONDS : Int := 24 * 3600

/-- The `STATIC_FALLBACK` table from `exchange_rates.py`: approximate
currency → EUR multipliers used when neither network nor cache is usable. -/
def STATIC_FALLBACK : List (String × ℚ) :=
  [("EUR", 1), ("USD", 0.8779), ("GBP", 1.1870), ("JPY", 0.006076), ("CHF", 1.0660)]

/-- The JSON cache file written by `_write_cache`: a timestamp `ts` (seconds)
and a `rates` mapping. `Option CacheFile = none` models "no cache file exists
or it is unreadable/corrupt" (the `except` branch of `_load_cache`). -/
structure CacheFile where
  ts : Int
  rates : List (String × ℚ)
deriving DecidableEq, Repr

/-- `_load_cache`: returns the cached mapping only when the file exists and
`time.time() - ts < TTL_SECONDS`; in every other case (no file, stale file,
read error) it returns the empty mapping. -/
def load_cache (cache : Option CacheFile) (now : Int) : List (String × ℚ) :=
  match cache with
  | none => []
  | some c => if now - c.ts < TTL_SECONDS then c.rates else []

/-- Python dict assignment `d[k] = v` on an association list: overwrite the
first binding of `k` in place, or append a new binding. -/
def setKey : List (String × ℚ) → String → ℚ → List (String × ℚ)
  | [], k, v => [(k, v)]
  | (k0, v0) :: t, k, v =>
    if k0 = k then (k, v) :: t else (k0, v0) :: setKey t k v

/-- `fetch_latest_rates` from `exchange_rates.py`.  The external world is
passed in explicitly: `cache` is the cache file's content (if any), `now` the
current time, and `net` the parsed body of the HTTP response — `none` models
any network, timeout, parse or non-2xx failure (everything caught by the
`except` clause).  Control flow mirrors the source:
1. if `use_cache`, a fresh non-empty cache is returned immediately;
2. on network success each service rate `v` (units of `c` per EUR) is
   inverted to `1/v` (falsy `v = 0` falls back to the static entry, default
   `1`), then `rates_to_eur['EUR'] = 1.0` is assigned;
3. on network failure the cache is consulted again, and only if that yields
   an empty mapping is `STATIC_FALLBACK` returned.
The cache write on success has no effect on the returned value and is not
modelled. -/
def fetch_latest_rates (use_cache : Bool) (cache : Option CacheFile) (now : Int)
    (net : Option (List (String × ℚ))) : List (String × ℚ) :=
  let cached := if use_cache then load_cache cache now else []
  if cached.isEmpty then
    match net with
    | some rates_base =>
      setKey
        (rates_base.map fun p =>
          (p.1, if p.2 ≠ 0 then 1 / p.2 else (List.lookup p.1 STATIC_FALLBACK).getD 1))
        "EUR" 1
    | none =>
      let cached2 := load_cache cache now
      if cached2.isEmpty then STATIC_FALLBACK else cached2
  else cached

/-- `convert_to_eur` from `exchange_rates.py` (called `to_eur` in the spec),
for the case where a rate mapping is supplied by the caller (the
`rates is None → fetch_latest_rates()` re-fetch branch is not exercised by
any claim, which all pass a mapping explicitly). -/
def convert_to_eur (amount : ℚ) (currency : String) (rates : List (String × ℚ)) : ℚ :=
  if currency = "EUR" then amount
  else amount * ((List.lookup currency rates).getD ((List.lookup currency STATIC_FALLBACK).getD 1))

/-! ### Record cleaner — `bronze_to_silver.py`, `clean_mileage`

`clean_mileage` extracts `([\d,]+)\s*(km|mi)` from the free-text `Mileage`
column (`str.extract`, i.e. `re.search` semantics: leftmost match; both
groups are `NaN` when the pattern does not match), synthesises the value "1"
for fully-restored vehicles with no match, drops remaining no-match rows,
fills missing units with "km", strips commas and converts to float, and
multiplies `mi` values by 1.60934. -/

/-- Character class `[\d,]` of the first capture group. -/
def isDigitOrComma (c : Char) : Bool := c.isDigit || c = ','

/-- Character class `\s` (Python whitespace). -/
def isPySpace (c : Char) : Bool :=
  c = ' ' || c = '\t' || c = '\n' || c = '\r' || c = '\x0b' || c = '\x0c'

/-- The alternation `(km|mi)` tried at the start of `cs`. -/
def unitAt (cs : List Char) : Option String :=
  if ['k', 'm'].isPrefixOf cs then some "km"
  else if ['m', 'i'].isPrefixOf cs then some "mi"
  else none

/-- One anchored attempt of `([\d,]+)\s*(km|mi)` at the start of `cs`.
The greedy maximal run for `[\d,]+` and for `\s*` is exact here: no shorter
run can ever let the rest of the pattern succeed, because `[\d,]`, `\s` and
the unit letters are pairwise disjoint character sets, so the regex's
backtracking never changes the outcome. -/
def matchAt (cs : List Char) : Option (String × String) :=
  let g1 := cs.takeWhile isDigitOrComma
  if g1.isEmpty then none
  else
    match unitAt ((cs.dropWhile isDigitOrComma).dropWhile isPySpace) with
    | some u => some (String.mk g1, u)
    | none => none

/-- `re.search`: try the anchored match at every start position, leftmost
success wins. -/
def searchMileage : List Char → Option (String × String)
  | [] => none
  | c :: rest =>
    match matchAt (c :: rest) with
    | some r => some r
    | none => searchMileage rest

/-- `df["Mileage"].str.extract(r'([\d,]+)\s*(km|mi)')` on one cell. -/
def extractMileage (s : String) : Option (String × String) :=
  searchMileage s.data

/-- `str.contains("fully restored", case=False, na=False)` on one cell:
case-insensitive substring containment, `false` on a null cell. -/
def condRestored (cond : Option String) : Bool :=
  match cond with
  | none => false
  | some s => decide ("fully restored".data <:+: s.data.map Char.toLower)

/-- Numeric value of a digit string (the capture group after
`str.replace(",", "")`). -/
def digitsToNat (l : List Char) : Nat :=
  l.foldl (fun n c => 10 * n + (c.toNat - 48)) 0

/-- `.str.replace(",", "").astype(float)` on one extracted group: the commas
are removed and the remaining digit string is parsed; an empty string (a
group that consisted of commas only) raises `ValueError`, modelled as
`none`. -/
def parseMileageValue (v : String) : Option ℚ :=
  let ds := v.data.filter fun c => c ≠ ','
  if ds.isEmpty then none else some (digitsToNat ds : ℕ)

/-- A raw (bronze) row, restricted to the two columns `clean_mileage`
reads: the free-text `Mileage` and `Condition` cells (both nullable). -/
structure BronzeRow where
  mileageField : Option String
  conditionField : Option String
deriving DecidableEq, Repr

/-- A cleaned row as produced by `clean_mileage`: the condition cell is
carried through unchanged, `mileage_unit` is the (possibly defaulted) unit,
and `Mileage_km` the standardized numeric mileage. -/
structure SilverRow where
  conditionField : Option String
  mileage_unit : String
  mileage_km : ℚ
deriving DecidableEq, Repr

/-- The `mi → km` factor `1.60934` from `clean_mileage`. -/
def MI_TO_KM : ℚ := 1.60934

/-- The extraction applied to one row's `Mileage` cell: `str.extract` leaves
`NaN` group values on a null cell as well as on a no-match cell. -/
def extractRow (r : BronzeRow) : Option (String × String) :=
  match r.mileageField with
  | none => none
  | some s => extractMileage s

/-- The per-row effect of `clean_mileage`.  The outer `Option` is the
run-aborting `ValueError` from `astype(float)`; the inner `Option` is
`none` when the row is dropped by the `~isna` filter.  Steps, in source
order: extract value/unit; synthesise `"1"` when there was no match and the
condition says fully restored; drop rows with no value; default the unit to
`"km"`; parse the value; convert `mi` to km. -/
def cleanRow (r : BronzeRow) : Option (Option SilverRow) :=
  let ext := extractRow r
  let mv : Option String :=
    if ext = none ∧ condRestored r.conditionField then some "1" else ext.map Prod.fst
  match mv with
  | none => some none
  | some v =>
    match parseMileageValue v with
    | none => none
    | some q =>
      let unit := (ext.map Prod.snd).getD "km"
      some (some ⟨r.conditionField, unit, if unit = "mi" then q * MI_TO_KM else q⟩)

/-- Sequence a row-wise fallible computation over a table: any raised
exception aborts the whole (vectorized) operation. -/
def mapOpt (f : α → Option β) : List α → Option (List β)
  | [] => some []
  | a :: as =>
    match f a, mapOpt f as with
    | some b, some bs => some (b :: bs)
    | _, _ => none

/-- `clean_mileage` on a table: per-row cleaning, keeping the rows that
survive the `~isna` filter.  `none` models the run aborting with
`ValueError` (possible only for an extracted group consisting of commas). -/
def clean_mileage (rows : List BronzeRow) : Option (List SilverRow) :=
  (mapOpt cleanRow rows).map (List.filterMap id)

/-- The claim-side reading of "the mileage field yields no numeric token":
the extraction pattern finds no match in the cell (or the cell is null). -/
def noNumericToken (r : BronzeRow) : Prop :=
  extractRow r = none

instance (r : BronzeRow) : Decidable (noNumericToken r) := by
  unfold noNumericToken; infer_instance

/-- The claim-side reading of "contains a unit token": `km` or `mi` occurs
as a substring of the mileage text. -/
def hasUnitToken (s : String) : Prop :=
  "km".data <:+: s.data ∨ "mi".data <:+: s.data

instance (s : String) : Decidable (hasUnitToken s) := by
  unfold hasUnitToken; infer_instance

/-! ### Feature engineering and outlier filter — `silver_to_gold.py`

Numeric cells at this stage are IEEE floats and the relevant behaviour is
exactly the special-value propagation of `np.log`, pandas `mean`/`std`
(which skip NaN and use the `ddof = 1` sample standard deviation) and float
comparisons (any comparison involving NaN is false).  `RVal` carries these
special values explicitly over exact rationals. -/

/-- A float cell: finite value, `±inf`, or `NaN`. -/
inductive RVal where
  | nan : RVal
  | pinf : RVal
  | ninf : RVal
  | fin : ℚ → RVal
deriving DecidableEq, Repr

namespace RVal

/-- Float NaN test. -/
def isNan : RVal → Bool
  | nan => true
  | _ => false

/-- Float infinity test. -/
def isInf : RVal → Bool
  | pinf => true
  | ninf => true
  | _ => false

/-- Float addition (special values only; finite addition is exact). -/
def radd : RVal → RVal → RVal
  | nan, _ => nan
  | _, nan => nan
  | pinf, ninf => nan
  | ninf, pinf => nan
  | pinf, _ => pinf
  | _, pinf => pinf
  | ninf, _ => ninf
  | _, ninf => ninf
  | fin a, fin b => fin (a + b)

/-- Float negation. -/
def rneg : RVal → RVal
  | nan => nan
  | pinf => ninf
  | ninf => pinf
  | fin a => fin (-a)

/-- Float subtraction. -/
def rsub (a b : RVal) : RVal := radd a (rneg b)

/-- Float multiplication (`0 * ±inf = nan`). -/
def rmul : RVal → RVal → RVal
  | nan, _ => nan
  | _, nan => nan
  | pinf, pinf => pinf
  | pinf, ninf => ninf
  | ninf, pinf => ninf
  | ninf, ninf => pinf
  | pinf, fin b => if 0 < b then pinf else if b = 0 then nan else ninf
  | fin a, pinf => if 0 < a then pinf else if a = 0 then nan else ninf
  | ninf, fin b => if 0 < b then ninf else if b = 0 then nan else pinf
  | fin a, ninf => if 0 < a then ninf else if a = 0 then nan else pinf
  | fin a, fin b => fin (a * b)

/-- Float `<=`: false whenever either side is NaN. -/
def rle : RVal → RVal → Bool
  | nan, _ => false
  | _, nan => false
  | ninf, _ => true
  | _, pinf => true
  | pinf, _ => false
  | _, ninf => false
  | fin a, fin b => decide (a ≤ b)

/-- Float `<` against a finite bound: false on NaN, as numpy comparisons
with NaN are. -/
def rltQ : RVal → ℚ → Bool
  | fin a, b => decide (a < b)
  | ninf, _ => true
  | _, _ => false

/-- The finite payload (only consulted where all values are known finite). -/
def finval : RVal → ℚ
  | fin a => a
  | _ => 0

end RVal

open RVal

/-- `np.log` elementwise: `log(+inf) = +inf`, `log(-inf) = nan`,
`log x = -inf` at `x = 0` and `nan` for `x < 0` (numpy emits only a
`RuntimeWarning` for these, no exception).  On positive finite arguments
the (transcendental) value is `ln x`, supplied as a parameter. -/
def np_log (ln : ℚ → ℚ) : RVal → RVal
  | nan => nan
  | pinf => pinf
  | ninf => nan
  | fin q => if 0 < q then fin (ln q) else if q = 0 then ninf else nan

/-- Sum of the finite payloads of a list all of whose members are finite. -/
def sumFin (l : List RVal) : ℚ := l.foldl (fun s x => s + x.finval) 0

/-- pandas `Series.mean()` (skipna): NaN entries are dropped first; the mean
is NaN for an empty series, follows a single-signed infinity, and is NaN
when both infinities occur. -/
def series_mean (l : List RVal) : RVal :=
  let v := l.filter fun x => !x.isNan
  if v.isEmpty then nan
  else if v.contains pinf && v.contains ninf then nan
  else if v.contains pinf then pinf
  else if v.contains ninf then ninf
  else fin (sumFin v / v.length)

/-- pandas `Series.std()` (skipna, `ddof = 1`): NaN entries are dropped
first; the sample standard deviation of fewer than two values is NaN, any
remaining infinity forces NaN (an infinite squared deviation contaminates
the sum), and otherwise it is the square root — supplied as the parameter
`sq` — of the exact sample variance. -/
def series_std (sq : ℚ → ℚ) (l : List RVal) : RVal :=
  let v := l.filter fun x => !x.isNan
  if v.length ≤ 1 then nan
  else if v.any RVal.isInf then nan
  else
    let m := sumFin v / v.length
    fin (sq ((v.foldl (fun s x => s + (x.finval - m) ^ 2) 0) / (v.length - 1)))

/-- `remove_outliers` from `silver_to_gold.py`, over a table `rows : List α`
with the target column read by `proj` (`df[column]`).  With `use_log` the
band is computed on `np.log` of the column; the filter retains rows whose
(log-)value `v` satisfies `mean - n_std * std <= v && v <= mean + n_std * std`
(the temporary `log_` column the source adds and drops is not materialised,
since it does not survive the call). -/
def remove_outliers (ln sq : ℚ → ℚ) (use_log : Bool) (n_std : ℚ)
    (proj : α → RVal) (rows : List α) : List α :=
  let vals := if use_log then (rows.map proj).map (np_log ln) else rows.map proj
  let mean_val := series_mean vals
  let std_val := series_std sq vals
  rows.filter fun r =>
    let v := if use_log then np_log ln (proj r) else proj r
    rle (rsub mean_val (rmul (fin n_std) std_val)) v &&
      rle v (radd mean_val (rmul (fin n_std) std_val))

/-- The claim-side description of the log-space band test: the row's
natural-log value lies within `[mean - n_std*std, mean + n_std*std]`
inclusive, where mean and std are computed over the log-transform of the
input table to this call (comparisons are float comparisons, so a NaN bound
or NaN log-value admits nothing). -/
def inLogBand (ln sq : ℚ → ℚ) (n_std : ℚ) (vals : List RVal) (v : RVal) : Bool :=
  let logs := vals.map (np_log ln)
  rle (rsub (series_mean logs) (rmul (fin n_std) (series_std sq logs))) (np_log ln v) &&
    rle (np_log ln v) (radd (series_mean logs) (rmul (fin n_std) (series_std sq logs)))

/-- `create_log_features` from `silver_to_gold.py`, restricted to the price
column (the claims do not touch the mileage-derived features): each price
cell is paired with its `log_price = np.log(price_in_eur)` cell.  The
operation is total — numpy logs of non-positive values warn and produce
`-inf`/`nan`, they do not raise. -/
def create_log_features (ln : ℚ → ℚ) (prices : List RVal) : List (RVal × RVal) :=
  prices.map fun p => (p, np_log ln p)

/-- The silver→gold orchestrator `process_silver_to_gold`, restricted to the
price column it threads through `dropna` → optional `remove_outliers`
(log-space) → `create_log_features`: the later stages
(`create_model_categories`, `calculate_listing_score`,
`prepare_modeling_features`) neither read nor modify `log_price`, and
persisting with `to_excel` is unconditional, so the returned table is the
persisted one. -/
def process_silver_to_gold (ln sq : ℚ → ℚ) (remove_price_outliers : Bool)
    (outlier_std : ℚ) (prices : List RVal) : List (RVal × RVal) :=
  let kept := prices.filter fun x => !x.isNan
  let kept2 :=
    if remove_price_outliers then remove_outliers ln sq true outlier_std id kept else kept
  create_log_features ln kept2

/-- Which of the seven score-source columns are present in the table
(`'...' in df.columns` checks in `calculate_listing_score`). -/
structure ScoreSchema where
  hasMatching : Bool
  hasOwners : Bool
  hasInterior : Bool
  hasExterior : Bool
  hasPts : Bool
  hasRestored : Bool
  hasMileage : Bool
deriving DecidableEq, Repr

/-- One row's cells for the seven score-source columns.  String cells are
nullable (a null cell compares unequal to `'Unknown'` in pandas, and
`notna` is false on it); `pts` and `restored` are the integer columns
produced upstream (0/1); `mileage` is nullable numeric. -/
structure ScoreRow where
  matching : Option String
  owners : Option String
  interior : Option String
  exterior : Option String
  pts : Int
  restored : Int
  mileage : Option ℚ
deriving DecidableEq, Repr

/-- The per-row sum of the score components that `calculate_listing_score`
appends for the columns present in the schema, in source order:
`(col != 'Unknown') * 10` twice, `notna * 5` twice, `pts * 15`,
`restored * 20`, and `np.where(mileage < 50000, 10, 0)` (false on a null
cell). -/
def scoreRow (sch : ScoreSchema) (r : ScoreRow) : Int :=
  (if sch.hasMatching then (if r.matching = some "Unknown" then 0 else 1) * 10 else 0) +
  (if sch.hasOwners then (if r.owners = some "Unknown" then 0 else 1) * 10 else 0) +
  (if sch.hasInterior then (if r.interior.isSome then 1 else 0) * 5 else 0) +
  (if sch.hasExterior then (if r.exterior.isSome then 1 else 0) * 5 else 0) +
  (if sch.hasPts then r.pts * 15 else 0) +
  (if sch.hasRestored then r.restored * 20 else 0) +
  (if sch.hasMileage then (if (r.mileage.map fun q => decide (q < 50000)).getD false then 10 else 0)
   else 0)

/-- Whether any score component was collected (`if score_components:`). -/
def anyScoreColumn (sch : ScoreSchema) : Bool :=
  sch.hasMatching || sch.hasOwners || sch.hasInterior || sch.hasExterior ||
    sch.hasPts || sch.hasRestored || sch.hasMileage

/-- `calculate_listing_score`: the `listing_score` column.  When no source
column is present the source's `else` branch assigns the constant 0. -/
def calculate_listing_score (sch : ScoreSchema) (rows : List ScoreRow) : List Int :=
  if anyScoreColumn sch then rows.map (scoreRow sch) else rows.map fun _ => 0

/-- The claim-side description of the score: the sum of exactly the seven
listed contributions, each gated on its source column being present —
+10 matching numbers known, +10 owners known, +5 interior colour present,
+5 exterior colour present, +15 PTS true, +20 fully restored, +10 mileage
below 50000. -/
def claimScore (sch : ScoreSchema) (r : ScoreRow) : Int :=
  (if sch.hasMatching ∧ r.matching ≠ some "Unknown" then 10 else 0) +
  (if sch.hasOwners ∧ r.owners ≠ some "Unknown" then 10 else 0) +
  (if sch.hasInterior ∧ r.interior.isSome then 5 else 0) +
  (if sch.hasExterior ∧ r.exterior.isSome then 5 else 0) +
  (if sch.hasPts ∧ r.pts = 1 then 15 else 0) +
  (if sch.hasRestored ∧ r.restored = 1 then 20 else 0) +
  (if sch.hasMileage ∧ (∃ q, r.mileage = some q ∧ q < 50000) then 10 else 0)

/-! ### Helper lemmas -/

theorem radd_nan_right (a : RVal) : radd a nan = nan := by cases a <;> rfl

theorem rmul_nan_right (a : RVal) : rmul a nan = nan := by cases a <;> rfl

theorem rsub_nan_right (a : RVal) : rsub a nan = nan := by
  show radd a (rneg nan) = nan
  exact radd_nan_right a

theorem rle_nan_left (b : RVal) : rle nan b = false := by cases b <;> rfl

theorem series_std_singleton (sq : ℚ → ℚ) (v : RVal) : series_std sq [v] = nan := by
  cases v <;> rfl

theorem lookup_setKey (l : List (String × ℚ)) (k : String) (v : ℚ) :
    List.lookup k (setKey l k v) = some v := by
  induction l with
  | nil => simp [setKey, List.lookup]
  | cons p t ih =>
    obtain ⟨k0, v0⟩ := p
    by_cases h : k0 = k
    · simp [setKey, h, List.lookup]
    · have hb : (k == k0) = false := beq_eq_false_iff_ne.mpr (Ne.symm h)
      simp [setKey, h, List.lookup, hb, ih]

theorem mapOpt_mem {f : α → Option β} :
    ∀ {l : List α} {ys : List β}, mapOpt f l = some ys →
      ∀ {a : α} {b : β}, a ∈ l → f a = some b → b ∈ ys := by
  intro l
  induction l with
  | nil => intro ys h a b ha; cases ha
  | cons x t ih =>
    intro ys h a b ha hf
    unfold mapOpt at h
    cases hx : f x with
    | none => rw [hx] at h; exact absurd h (by simp)
    | some bx =>
      rw [hx] at h
      cases ht : mapOpt f t with
      | none => rw [ht] at h; exact absurd h (by simp)
      | some bs =>
        rw [ht] at h
        simp only [Option.some.injEq] at h
        subst h
        rcases List.mem_cons.mp ha with rfl | hmem
        · rw [hf] at hx
          simp only [Option.some.injEq] at hx
          simp [hx]
        · exact List.mem_cons_of_mem _ (ih ht hmem hf)

theorem mapOpt_mem_rev {f : α → Option β} :
    ∀ {l : List α} {ys : List β}, mapOpt f l = some ys →
      ∀ {b : β}, b ∈ ys → ∃ a ∈ l, f a = some b := by
  intro l
  induction l with
  | nil =>
    intro ys h b hb
    unfold mapOpt at h
    simp only [Option.some.injEq] at h
    subst h
    cases hb
  | cons x t ih =>
    intro ys h b hb
    unfold mapOpt at h
    cases hx : f x with
    | none => rw [hx] at h; exact absurd h (by simp)
    | some bx =>
      rw [hx] at h
      cases ht : mapOpt f t with
      | none => rw [ht] at h; exact absurd h (by simp)
      | some bs =>
        rw [ht] at h
        simp only [Option.some.injEq] at h
        subst h
        rcases List.mem_cons.mp hb with rfl | hmem
        · exact ⟨x, List.mem_cons_self x t, hx⟩
        · obtain ⟨a, ha, hfa⟩ := ih ht hmem
          exact ⟨a, List.mem_cons_of_mem _ ha, hfa⟩

/-! ### Claims -/

/-- C6: for every amount and every rate mapping (including mappings where
"EUR" is absent or maps to a value other than 1.0),
`to_eur(amount, "EUR", rates)` returns the amount unchanged, never
consulting the mapping (the equality holds uniformly in `rates`). -/
theorem convert_to_eur_identity_on_eur (amount : ℚ) (rates : List (String × ℚ)) :
    convert_to_eur amount "EUR" rates = amount := by
  simp [convert_to_eur]

/-- C7: for every amount, every currency other than "EUR", and every rate
mapping, `to_eur` returns `amount * m` (total, never raising), where `m` is
the rate mapping's entry for the currency if present, else the static
fallback table's entry if present there, else 1. -/
theorem convert_to_eur_non_eur (amount : ℚ) (currency : String)
    (rates : List (String × ℚ)) (h : currency ≠ "EUR") :
    convert_to_eur amount currency rates =
      amount *
        (match List.lookup currency rates with
         | some m => m
         | none =>
           match List.lookup currency STATIC_FALLBACK with
           | some m => m
           | none => 1) := by
  simp only [convert_to_eur, if_neg h]
  cases List.lookup currency rates with
  | some m => rfl
  | none => cases List.lookup currency STATIC_FALLBACK with
    | some m => rfl
    | none => rfl

/-- Witness for C7 at amount 100, currency "USD", an empty rate mapping. -/
theorem convert_to_eur_non_eur_witness :
    convert_to_eur 100 "USD" [] =
      100 *
        (match List.lookup "USD" [] with
         | some m => m
         | none =>
           match List.lookup "USD" STATIC_FALLBACK with
           | some m => m
           | none => 1) :=
  convert_to_eur_non_eur 100 "USD" [] (by decide)

/-- C10: for every one-row table, `remove_outliers` returns the empty table
regardless of the row's value, of `n_std` and of `use_log`: the sample
standard deviation (`ddof = 1`) of a single value is NaN and both band
comparisons against a NaN bound are false, so the sole row is dropped. -/
theorem remove_outliers_singleton {α : Type} (ln sq : ℚ → ℚ) (use_log : Bool)
    (n_std : ℚ) (proj : α → RVal) (r : α) :
    remove_outliers ln sq use_log n_std proj [r] = [] := by
  cases use_log <;>
    simp [remove_outliers, series_std_singleton, rmul_nan_right, rsub_nan_right,
      rle_nan_left, List.filter]

/-- C5: with `use_log`, `remove_outliers` retains exactly the input rows
whose natural-log value of the column lies within the inclusive band
`[mean - n_std*std, mean + n_std*std]` computed over the log-transform of
the input table to this call: every retained row comes from the input, and
a row of the input is retained iff its log-value lies in the band. -/
theorem remove_outliers_log_band {α : Type} (ln sq : ℚ → ℚ) (n_std : ℚ)
    (proj : α → RVal) (rows : List α) :
    (∀ r ∈ remove_outliers ln sq true n_std proj rows, r ∈ rows) ∧
    (∀ r ∈ rows,
      r ∈ remove_outliers ln sq true n_std proj rows ↔
        inLogBand ln sq n_std (rows.map proj) (proj r) = true) := by
  have hre : remove_outliers ln sq true n_std proj rows
      = rows.filter fun r => inLogBand ln sq n_std (rows.map proj) (proj r) := rfl
  constructor
  · intro r hr
    rw [hre] at hr
    exact (List.mem_filter.mp hr).1
  · intro r hr
    rw [hre]
    constructor
    · intro h
      exact (List.mem_filter.mp h).2
    · intro h
      exact List.mem_filter.mpr ⟨hr, h⟩

/-- Witness for C5 on the two-row table `[1, 1]` (identity stand-ins for
`ln` and `sqrt`): membership of the first row is decidable concretely. -/
theorem remove_outliers_log_band_witness :
    RVal.fin 1 ∈ remove_outliers id id true 3 id [RVal.fin 1, RVal.fin 1] ↔
      inLogBand id id 3 ([RVal.fin 1, RVal.fin 1].map id) (id (RVal.fin 1)) = true :=
  (remove_outliers_log_band id id 3 id [RVal.fin 1, RVal.fin 1]).2 (RVal.fin 1) (by decide)

/-- C8 (amended): computing the log-price feature at a non-positive price
does not abort the run — `np.log` yields `-inf` at 0 and `NaN` below 0
(a RuntimeWarning only), and the silver→gold run completes, producing and
persisting the full feature table for every input. -/
theorem create_log_features_nonpositive_total (ln sq : ℚ → ℚ) (n_std : ℚ)
    (prices : List RVal) :
    process_silver_to_gold ln sq false n_std prices =
      (prices.filter fun x => !x.isNan).map (fun p => (p, np_log ln p)) ∧
    (∀ q : ℚ, q < 0 → np_log ln (fin q) = nan) ∧
    np_log ln (fin 0) = ninf := by
  refine ⟨rfl, ?_, ?_⟩
  · intro q hq
    simp [np_log, not_lt.mpr hq.le, hq.ne]
  · simp [np_log]

/-- Witness for C8 (amended) at the concrete negative price −1. -/
theorem create_log_features_nonpositive_total_witness :
    np_log id (fin (-1)) = nan :=
  (create_log_features_nonpositive_total id id 3 []).2.1 (-1) (by decide)

/-- Counterexample to C8 as stated: a table whose sole row has the
non-positive price 0 reaches the feature-engineering stage (outlier removal
disabled), and the run does not abort — it completes with a persisted table
pairing that price with `log_price = -inf`. -/
theorem create_log_features_nonpositive_cex :
    process_silver_to_gold (fun q => q) (fun q => q) false 3 [fin 0] =
      [(fin 0, ninf)] := rfl

/-- C1 (amended): when the network fetch fails, `fetch_latest_rates` returns
the cache file's rate mapping only if the cache file exists, its age is
strictly below the 24h TTL, and its mapping is non-empty; whenever the cache
read yields nothing (no file, stale file, or empty mapping) it returns
exactly the built-in static table, whose "EUR" entry is 1. -/
theorem fetch_latest_rates_network_failure (use_cache : Bool)
    (cache : Option CacheFile) (now : Int) :
    (∀ cf : CacheFile, cache = some cf → now - cf.ts < TTL_SECONDS → cf.rates ≠ [] →
      fetch_latest_rates use_cache cache now none = cf.rates) ∧
    (load_cache cache now = [] →
      fetch_latest_rates use_cache cache now none = STATIC_FALLBACK) ∧
    List.lookup "EUR" STATIC_FALLBACK = some 1 := by
  refine ⟨?_, ?_, rfl⟩
  · intro cf hcf hfresh hne
    subst hcf
    have hl : load_cache (some cf) now = cf.rates := by
      simp [load_cache, hfresh]
    cases use_cache <;> simp [fetch_latest_rates, hl, hne]
  · intro hl
    cases use_cache <;> simp [fetch_latest_rates, hl]

/-- Witness for C1 (amended): a fresh non-empty cache is returned verbatim
on network failure. -/
theorem fetch_latest_rates_network_failure_witness :
    fetch_latest_rates true (some ⟨0, [("USD", 2)]⟩) 0 none = [("USD", 2)] :=
  (fetch_latest_rates_network_failure true (some ⟨0, [("USD", 2)]⟩) 0).1
    ⟨0, [("USD", 2)]⟩ rfl (by decide) (by decide)

/-- Counterexample to C1 as stated: the network fails and a cache file
exists, but it is stale (age exactly the 24h TTL), so the fetch returns the
static table, not the cache file's mapping. -/
theorem fetch_latest_rates_stale_cache_cex :
    fetch_latest_rates true (some ⟨0, [("USD", 2)]⟩) 86400 none = STATIC_FALLBACK ∧
    STATIC_FALLBACK ≠ [("USD", 2)] := by
  refine ⟨rfl, ?_⟩
  intro h
  exact absurd (congrArg List.length h) (by decide)

/-- C2 (amended): every rate mapping returned by `fetch_latest_rates` maps
"EUR" to 1 — unconditionally on the network-success and static-fallback
paths, and on the cache paths provided the cache file's own mapping maps
"EUR" to 1 (which holds for every cache this module writes, since the
written mapping comes from the success path). -/
theorem fetch_latest_rates_eur_invariant (use_cache : Bool)
    (cache : Option CacheFile) (now : Int) (net : Option (List (String × ℚ)))
    (hcache : ∀ cf : CacheFile, cache = some cf → List.lookup "EUR" cf.rates = some 1) :
    List.lookup "EUR" (fetch_latest_rates use_cache cache now net) = some 1 := by
  have hstat : List.lookup "EUR" STATIC_FALLBACK = some 1 := rfl
  have hcachel : load_cache cache now ≠ [] →
      List.lookup "EUR" (load_cache cache now) = some 1 := by
    intro hne
    cases hc : cache with
    | none => rw [hc] at hne; exact absurd rfl hne
    | some cf =>
      show List.lookup "EUR" (if now - cf.ts < TTL_SECONDS then cf.rates else []) = some 1
      by_cases hf : now - cf.ts < TTL_SECONDS
      · rw [if_pos hf]
        exact hcache cf hc
      · exfalso
        apply hne
        rw [hc]
        show (if now - cf.ts < TTL_SECONDS then cf.rates else []) = []
        rw [if_neg hf]
  by_cases h1 : load_cache cache now = []
  · cases net with
    | some rb =>
      cases use_cache <;> simp only [fetch_latest_rates, h1, List.isEmpty_nil, if_true] <;>
        exact lookup_setKey _ _ _
    | none =>
      cases use_cache <;> simp [fetch_latest_rates, h1, hstat]
  · have he : (load_cache cache now).isEmpty = false := by
      simpa [List.isEmpty_eq_false] using h1
    have hl2 := hcachel h1
    cases use_cache with
    | true => simp [fetch_latest_rates, he, hl2]
    | false =>
      cases net with
      | some rb =>
        simp only [fetch_latest_rates, List.isEmpty_nil, if_true, if_false]
        exact lookup_setKey _ _ _
      | none => simp [fetch_latest_rates, he, hl2]

/-- Witness for C2 (amended): no cache file, network failure — the static
table is returned and maps "EUR" to 1. -/
theorem fetch_latest_rates_eur_invariant_witness :
    List.lookup "EUR" (fetch_latest_rates true none 0 none) = some 1 :=
  fetch_latest_rates_eur_invariant true none 0 none (fun _ h => nomatch h)

/-- Counterexample to C2 as stated: a fresh cache file whose mapping lacks
"EUR" is returned verbatim by the cache-hit path, so the returned mapping
has no "EUR" entry at all. -/
theorem fetch_latest_rates_eur_missing_cex :
    fetch_latest_rates true (some ⟨0, [("USD", 2)]⟩) 0 (some []) = [("USD", 2)] ∧
    List.lookup "EUR" [("USD", (2 : ℚ))] = none := ⟨rfl, rfl⟩

/-- C9: on a table whose `Paint-to-Sample (PTS)` and `is_fully_restored`
columns hold the 0/1 indicator values the upstream cleaning stage produces,
`calculate_listing_score` assigns each row exactly the sum of the seven
claimed contributions (+10 matching numbers known, +10 owners known,
+5 interior colour present, +5 exterior colour present, +15 PTS true,
+20 fully restored, +10 mileage below 50000), each contributing 0 when its
source column is absent; the computation is total, and a table with none of
the source columns gets score 0 for every row. -/
theorem calculate_listing_score_eq_claim (sch : ScoreSchema) (rows : List ScoreRow)
    (h : ∀ r ∈ rows, (r.pts = 0 ∨ r.pts = 1) ∧ (r.restored = 0 ∨ r.restored = 1)) :
    calculate_listing_score sch rows = rows.map (claimScore sch) ∧
    (anyScoreColumn sch = false → calculate_listing_score sch rows = rows.map fun _ => 0) := by
  have hpoint : ∀ r ∈ rows, scoreRow sch r = claimScore sch r := by
    intro r hr
    obtain ⟨hp, hres⟩ := h r hr
    unfold scoreRow claimScore
    have e1 : (if sch.hasMatching then (if r.matching = some "Unknown" then 0 else 1) * 10 else 0)
        = (if sch.hasMatching ∧ r.matching ≠ some "Unknown" then (10 : Int) else 0) := by
      cases sch.hasMatching <;> by_cases hu : r.matching = some "Unknown" <;> simp [hu]
    have e2 : (if sch.hasOwners then (if r.owners = some "Unknown" then 0 else 1) * 10 else 0)
        = (if sch.hasOwners ∧ r.owners ≠ some "Unknown" then (10 : Int) else 0) := by
      cases sch.hasOwners <;> by_cases hu : r.owners = some "Unknown" <;> simp [hu]
    have e3 : (if sch.hasInterior then (if r.interior.isSome then 1 else 0) * 5 else 0)
        = (if sch.hasInterior ∧ r.interior.isSome then (5 : Int) else 0) := by
      cases sch.hasInterior <;> cases r.interior <;> simp
    have e4 : (if sch.hasExterior then (if r.exterior.isSome then 1 else 0) * 5 else 0)
        = (if sch.hasExterior ∧ r.exterior.isSome then (5 : Int) else 0) := by
      cases sch.hasExterior <;> cases r.exterior <;> simp
    have e5 : (if sch.hasPts then r.pts * 15 else 0)
        = (if sch.hasPts ∧ r.pts = 1 then (15 : Int) else 0) := by
      rcases hp with hp | hp <;> rw [hp] <;> cases sch.hasPts <;> simp
    have e6 : (if sch.hasRestored then r.restored * 20 else 0)
        = (if sch.hasRestored ∧ r.restored = 1 then (20 : Int) else 0) := by
      rcases hres with hres | hres <;> rw [hres] <;> cases sch.hasRestored <;> simp
    have e7 : (if sch.hasMileage then
          (if (r.mileage.map fun q => decide (q < 50000)).getD false then (10 : Int) else 0)
        else 0)
        = (if sch.hasMileage ∧ (∃ q, r.mileage = some q ∧ q < 50000) then (10 : Int) else 0) := by
      cases sch.hasMileage with
      | false => simp
      | true =>
        cases hq : r.mileage with
        | none => simp [hq]
        | some q => by_cases hlt : q < 50000 <;> simp [hq, hlt]
    rw [e1, e2, e3, e4, e5, e6, e7]
  refine ⟨?_, ?_⟩
  · unfold calculate_listing_score
    by_cases ha : anyScoreColumn sch = true
    · rw [if_pos ha]
      exact List.map_congr_left hpoint
    · rw [if_neg ha]
      have hflags : sch.hasMatching = false ∧ sch.hasOwners = false ∧ sch.hasInterior = false ∧
          sch.hasExterior = false ∧ sch.hasPts = false ∧ sch.hasRestored = false ∧
          sch.hasMileage = false := by
        have hb := Bool.not_eq_true _ |>.mp ha
        unfold anyScoreColumn at hb
        simp only [Bool.or_eq_false_iff] at hb
        tauto
      refine List.map_congr_left fun r hr => ?_
      obtain ⟨h1, h2, h3, h4, h5, h6, h7⟩ := hflags
      simp [claimScore, h1, h2, h3, h4, h5, h6, h7]
  · intro ha
    unfold calculate_listing_score
    rw [if_neg (by simp [ha])]

/-- Witness for C9: a full schema and a one-row table with PTS = 1,
is_fully_restored = 0, mileage 100. -/
theorem calculate_listing_score_eq_claim_witness :
    calculate_listing_score ⟨true, true, true, true, true, true, true⟩
        [⟨none, none, none, none, 1, 0, some 100⟩] =
      [(⟨none, none, none, none, 1, 0, some 100⟩ : ScoreRow)].map
        (claimScore ⟨true, true, true, true, true, true, true⟩) ∧
    (anyScoreColumn ⟨true, true, true, true, true, true, true⟩ = false →
      calculate_listing_score ⟨true, true, true, true, true, true, true⟩
          [⟨none, none, none, none, 1, 0, some 100⟩] =
        [(⟨none, none, none, none, 1, 0, some 100⟩ : ScoreRow)].map fun _ => 0) :=
  calculate_listing_score_eq_claim _ _ (by decide)

theorem unitAt_eq_some {cs : List Char} {u : String} (h : unitAt cs = some u) :
    ['k', 'm'] <+: cs ∨ ['m', 'i'] <+: cs := by
  unfold unitAt at h
  by_cases h1 : ['k', 'm'].isPrefixOf cs = true
  · exact Or.inl (List.isPrefixOf_iff_prefix.mp h1)
  · rw [if_neg h1] at h
    by_cases h2 : ['m', 'i'].isPrefixOf cs = true
    · exact Or.inr (List.isPrefixOf_iff_prefix.mp h2)
    · rw [if_neg h2] at h
      exact absurd h (by simp)

theorem matchAt_unit {cs : List Char} {p : String × String} (h : matchAt cs = some p) :
    ['k', 'm'] <:+: cs ∨ ['m', 'i'] <:+: cs := by
  unfold matchAt at h
  by_cases hg : (cs.takeWhile isDigitOrComma).isEmpty = true
  · rw [if_pos hg] at h
    exact absurd h (by simp)
  · rw [if_neg hg] at h
    have hsuf : (cs.dropWhile isDigitOrComma).dropWhile isPySpace <:+ cs :=
      (List.dropWhile_suffix _).trans (List.dropWhile_suffix _)
    cases hu : unitAt ((cs.dropWhile isDigitOrComma).dropWhile isPySpace) with
    | none => rw [hu] at h; exact absurd h (by simp)
    | some u =>
      rcases unitAt_eq_some hu with hp | hp
      · exact Or.inl (hp.isInfix.trans hsuf.isInfix)
      · exact Or.inr (hp.isInfix.trans hsuf.isInfix)

theorem searchMileage_unit : ∀ {cs : List Char} {p : String × String},
    searchMileage cs = some p → ['k', 'm'] <:+: cs ∨ ['m', 'i'] <:+: cs := by
  intro cs
  induction cs with
  | nil => intro p h; exact absurd h (by simp [searchMileage])
  | cons c rest ih =>
    intro p h
    unfold searchMileage at h
    cases hm : matchAt (c :: rest) with
    | some r => exact matchAt_unit hm
    | none =>
      rw [hm] at h
      rcases ih h with hp | hp
      · exact Or.inl (hp.trans (List.suffix_cons c rest).isInfix)
      · exact Or.inr (hp.trans (List.suffix_cons c rest).isInfix)

theorem extractMileage_none_of_no_unit {s : String} (h : ¬ hasUnitToken s) :
    extractMileage s = none := by
  cases hx : extractMileage s with
  | none => rfl
  | some p =>
    exfalso
    apply h
    unfold extractMileage at hx
    unfold hasUnitToken
    have hkm : "km".data = ['k', 'm'] := rfl
    have hmi : "mi".data = ['m', 'i'] := rfl
    rw [hkm, hmi]
    exact searchMileage_unit hx

theorem cleanRow_noTok_not_restored {r : BronzeRow} (hnt : noNumericToken r)
    (hc : condRestored r.conditionField = false) : cleanRow r = some none := by
  unfold noNumericToken at hnt
  simp [cleanRow, hnt, hc]

theorem cleanRow_noTok_restored {r : BronzeRow} (hnt : noNumericToken r)
    (hc : condRestored r.conditionField = true) :
    cleanRow r = some (some ⟨r.conditionField, "km", 1⟩) := by
  unfold noNumericToken at hnt
  have h1 : parseMileageValue "1" = some 1 := by decide
  simp [cleanRow, hnt, hc, h1]

/-- C3 (amended): a raw row whose mileage text contains a numeric token but
no unit token does not match the extraction pattern (which requires a `km`
or `mi` unit), so the Record Cleaner does not keep it with a parsed value:
the row is treated as unparseable — dropped unless its condition contains
"fully restored", in which case it survives with the synthesized mileage 1
km.  The km default applies only to the synthesized rows, whose extracted
unit is null. -/
theorem clean_mileage_numeric_no_unit (r : BronzeRow) (s : String)
    (hs : r.mileageField = some s) (_hdigit : ∃ c ∈ s.data, c.isDigit = true)
    (hunit : ¬ hasUnitToken s) :
    cleanRow r =
      if condRestored r.conditionField then some (some ⟨r.conditionField, "km", 1⟩)
      else some none := by
  have hnt : noNumericToken r := by
    unfold noNumericToken extractRow
    rw [hs]
    exact extractMileage_none_of_no_unit hunit
  cases hc : condRestored r.conditionField with
  | true => rw [if_pos rfl]; exact cleanRow_noTok_restored hnt hc
  | false => rw [if_neg (by simp)]; exact cleanRow_noTok_not_restored hnt hc

/-- Witness for C3 (amended): mileage text "56000" (numeric, no unit),
condition "good". -/
theorem clean_mileage_numeric_no_unit_witness :
    cleanRow ⟨some "56000", some "good"⟩ =
      if condRestored (some "good") then some (some ⟨some "good", "km", 1⟩)
      else some none :=
  clean_mileage_numeric_no_unit ⟨some "56000", some "good"⟩ "56000" rfl
    (by decide) (by decide)

/-- Counterexample to C3 as stated: the row with mileage text "56000"
(a numeric token, no unit token) and condition "good" is dropped by
`clean_mileage`, not kept with value 56000 and unit km. -/
theorem clean_mileage_numeric_no_unit_cex :
    clean_mileage [⟨some "56000", some "good"⟩] = some [] := by decide

theorem parseMileageValue_nonneg {v : String} {q : ℚ}
    (h : parseMileageValue v = some q) : 0 ≤ q := by
  unfold parseMileageValue at h
  by_cases he : (v.data.filter fun c => c ≠ ',').isEmpty = true
  · rw [if_pos he] at h
    exact absurd h (by simp)
  · rw [if_neg he] at h
    simp only [Option.some.injEq] at h
    rw [← h]
    exact Nat.cast_nonneg _

theorem cleanRow_ext_some {r : BronzeRow} {v0 u0 : String}
    (hext : extractRow r = some (v0, u0)) :
    cleanRow r =
      match parseMileageValue v0 with
      | none => none
      | some q =>
        some (some ⟨r.conditionField, u0, if u0 = "mi" then q * MI_TO_KM else q⟩) := by
  unfold cleanRow
  rw [hext]
  rfl

theorem cleanRow_ext_none {r : BronzeRow} (hext : extractRow r = none) :
    cleanRow r =
      if condRestored r.conditionField then
        match parseMileageValue "1" with
        | none => none
        | some q =>
          some (some ⟨r.conditionField, "km", if "km" = "mi" then q * MI_TO_KM else q⟩)
      else some none := by
  unfold cleanRow
  rw [hext]
  cases condRestored r.conditionField <;> rfl

theorem cleanRow_kept_nonneg {r : BronzeRow} {sr : SilverRow}
    (h : cleanRow r = some (some sr)) : 0 ≤ sr.mileage_km := by
  have hmi : (0 : ℚ) ≤ MI_TO_KM := by norm_num [MI_TO_KM]
  cases hext : extractRow r with
  | none =>
    have h1 : parseMileageValue "1" = some 1 := by decide
    rw [cleanRow_ext_none hext, h1] at h
    cases hcc : condRestored r.conditionField with
    | true =>
      rw [if_pos (by rw [hcc])] at h
      simp only [Option.some.injEq] at h
      rw [← h]
      rw [if_neg (by decide)]
      norm_num
    | false =>
      rw [if_neg (by rw [hcc]; exact Bool.false_ne_true)] at h
      exact absurd h (by simp)
  | some p =>
    obtain ⟨v0, u0⟩ := p
    rw [cleanRow_ext_some hext] at h
    cases hp : parseMileageValue v0 with
    | none => rw [hp] at h; exact absurd h (by simp)
    | some q =>
      have hq := parseMileageValue_nonneg hp
      rw [hp] at h
      simp only [Option.some.injEq] at h
      rw [← h]
      by_cases hu : u0 = "mi"
      · rw [if_pos hu]
        exact mul_nonneg hq hmi
      · rw [if_neg hu]
        exact hq

/-- C4: whenever `clean_mileage` completes, every surviving row carries a
non-null mileage value in kilometers with `mileage_km ≥ 0`; a row whose
mileage field yields no numeric token (the extraction finds no match) and
whose condition does not contain "fully restored" is dropped (its cleaned
image is `none`, so it contributes nothing to the output); and a row with
no numeric token whose condition does contain "fully restored" survives
with the synthesized mileage value 1 (unit km) and appears in the output. -/
theorem clean_mileage_invariants (rows : List BronzeRow) (out : List SilverRow)
    (hclean : clean_mileage rows = some out) :
    (∀ sr ∈ out, 0 ≤ sr.mileage_km) ∧
    (∀ r ∈ rows, noNumericToken r → condRestored r.conditionField = false →
      cleanRow r = some none) ∧
    (∀ r ∈ rows, noNumericToken r → condRestored r.conditionField = true →
      cleanRow r = some (some ⟨r.conditionField, "km", 1⟩) ∧
        (⟨r.conditionField, "km", 1⟩ : SilverRow) ∈ out) := by
  obtain ⟨ys, hys, hout⟩ : ∃ ys, mapOpt cleanRow rows = some ys ∧ out = ys.filterMap id := by
    unfold clean_mileage at hclean
    cases hm : mapOpt cleanRow rows with
    | none => rw [hm] at hclean; exact absurd hclean (by simp)
    | some ys =>
      rw [hm] at hclean
      simp only [Option.map_some', Option.some.injEq] at hclean
      exact ⟨ys, rfl, hclean.symm⟩
  refine ⟨?_, ?_, ?_⟩
  · intro sr hsr
    rw [hout] at hsr
    obtain ⟨o, ho, hid⟩ := List.mem_filterMap.mp hsr
    obtain ⟨r, _, hcr⟩ := mapOpt_mem_rev hys ho
    rw [show o = some sr from hid] at hcr
    exact cleanRow_kept_nonneg hcr
  · intro r _ hnt hc
    exact cleanRow_noTok_not_restored hnt hc
  · intro r hr hnt hc
    have hk := cleanRow_noTok_restored hnt hc
    refine ⟨hk, ?_⟩
    have hmem := mapOpt_mem hys hr hk
    rw [hout]
    exact List.mem_filterMap.mpr ⟨some ⟨r.conditionField, "km", 1⟩, hmem, rfl⟩

/-- Witness for C4: a two-row table — one row with no mileage text and a
"Fully restored" condition (kept with mileage 1), one unparseable row
(dropped). -/
theorem clean_mileage_invariants_witness :
    (∀ sr ∈ [(⟨some "Fully restored", "km", 1⟩ : SilverRow)], 0 ≤ sr.mileage_km) ∧
    (∀ r ∈ [(⟨none, some "Fully restored"⟩ : BronzeRow), ⟨some "n/a", none⟩],
      noNumericToken r → condRestored r.conditionField = false →
      cleanRow r = some none) ∧
    (∀ r ∈ [(⟨none, some "Fully restored"⟩ : BronzeRow), ⟨some "n/a", none⟩],
      noNumericToken r → condRestored r.conditionField = true →
      cleanRow r = some (some ⟨r.conditionField, "km", 1⟩) ∧
        (⟨r.conditionField, "km", 1⟩ : SilverRow) ∈
          [(⟨some "Fully restored", "km", 1⟩ : SilverRow)]) :=
  clean_mileage_invariants
    [⟨none, some "Fully restored"⟩, ⟨some "n/a", none⟩]
    [⟨some "Fully restored", "km", 1⟩] (by decide)
